import Mathlib

/-!
Shallow embedding of the Fastly service attribute handlers
(block_fastly_service_v1_acl.go, block_fastly_service_v1_logentries.go,
block_fastly_service_v1_package.go from terraform-provider-fastly).

The write path (Process) of the ACL handler is modelled as a pure function
from the declared old/new collections and a remote-client oracle to the
sequence of remote calls issued together with the returned error. The read
paths and the flatten normalizers are modelled likewise. Go interface values
stored in the Terraform field maps become GoValue; go-fastly errors become
GoError (an HTTP error with a status code, or any other error); a Go error
return becomes Option GoError with none standing for nil.
-/

/-- A Go interface value as stored in a Terraform block's field map:
a string, an integer (Go int or uint), or a boolean. -/
inductive GoValue where
  | str (s : String)
  | int (n : Int)
  | bool (b : Bool)
  deriving DecidableEq, Repr

/-- A go-fastly client error: either a gofastly.HTTPError carrying a status
code, or any other error (carrying only its message). -/
inductive GoError where
  | httpError (statusCode : Nat)
  | other (msg : String)
  deriving DecidableEq, Repr

/-- One element of the "acl" TypeSet: per the registered schema a block has a
"name" field and a computed "acl_id" field, both strings. Equality is full
structural equality, as for schema.Set members (the set hashes the whole map). -/
structure ACLBlock where
  name : String
  acl_id : String
  deriving DecidableEq, Repr

/-- gofastly.DeleteACLInput as filled by Process. -/
structure DeleteACLInput where
  ServiceID : String
  ServiceVersion : Int
  Name : String
  deriving DecidableEq, Repr

/-- gofastly.CreateACLInput as filled by Process. -/
structure CreateACLInput where
  ServiceID : String
  ServiceVersion : Int
  Name : String
  deriving DecidableEq, Repr

/-- gofastly.UpdatePackageInput as filled by the package handler's Process. -/
structure UpdatePackageInput where
  ServiceID : String
  ServiceVersion : Int
  PackagePath : String
  deriving DecidableEq, Repr

/-- gofastly.ListACLsInput as filled by the ACL handler's Read. -/
structure ListACLsInput where
  ServiceID : String
  ServiceVersion : Int
  deriving DecidableEq, Repr

/-- gofastly.GetPackageInput as filled by the package handler's Read. -/
structure GetPackageInput where
  ServiceID : String
  ServiceVersion : Int
  deriving DecidableEq, Repr

/-- A remote entity of kind gofastly.ACL: the fields the flattener reads. -/
structure ACL where
  ID : String
  Name : String
  deriving DecidableEq, Repr

/-- gofastly.Package.Metadata: the server-derived package metadata. -/
structure PackageMetadata where
  HashSum : String
  deriving DecidableEq, Repr

/-- A remote entity of kind gofastly.Package. -/
structure Package where
  Metadata : PackageMetadata
  deriving DecidableEq, Repr

/-- The one element of the "package" TypeList block. -/
structure PackageBlock where
  filename : String
  source_code_hash : String
  deriving DecidableEq, Repr

/-- One remote mutation issued to the gofastly client, in issue order. -/
inductive RemoteCall where
  | deleteACL (i : DeleteACLInput)
  | createACL (i : CreateACLInput)
  | updatePackage (i : UpdatePackageInput)
  deriving DecidableEq, Repr

/-- Whether a remote call is a delete. -/
def RemoteCall.isDelete : RemoteCall → Bool
  | .deleteACL _ => true
  | _ => false

/-- Whether a remote call is a create. -/
def RemoteCall.isCreate : RemoteCall → Bool
  | .createACL _ => true
  | _ => false

/-- The gofastly client as an oracle: each operation's response is a function
of its input. none stands for a nil Go error. -/
structure Conn where
  DeleteACL : DeleteACLInput → Option GoError
  CreateACL : CreateACLInput → Option GoError
  UpdatePackage : UpdatePackageInput → Option GoError
  ListACLs : ListACLsInput → Except GoError (List ACL)
  GetPackage : GetPackageInput → Except GoError Package

/-- schema.Set.Difference(other).List(): the members of s that are not
members of other, under full structural equality of blocks. -/
def setDifference (s other : List ACLBlock) : List ACLBlock :=
  s.filter (fun b => decide (b ∉ other))

/-- The error classification of the removal loop body (Process lines 51-57):
an HTTPError with StatusCode 404 is absorbed (continue), an HTTPError with any
other status is returned, a nil error continues, any other non-nil error is
returned. The result is the error Process returns there, none meaning the
loop continues. -/
def deleteErrFatal : Option GoError → Option GoError
  | some (GoError.httpError s) => if s ≠ 404 then some (GoError.httpError s) else none
  | some e => some e
  | none => none

/-- The removal loop of ACLServiceAttributeHandler.Process (lines 40-58):
one DeleteACL call per removed block, in list order; a fatal classification
returns that error at once, so later removals are not attempted. Returns the
calls issued and the error returned (none when the loop completed). -/
def ACLHandler.deleteLoop (conn : Conn) (serviceID : String) (latestVersion : Int) :
    List ACLBlock → List RemoteCall × Option GoError
  | [] => ([], none)
  | b :: rest =>
    match deleteErrFatal (conn.DeleteACL ⟨serviceID, latestVersion, b.name⟩) with
    | some e => ([RemoteCall.deleteACL ⟨serviceID, latestVersion, b.name⟩], some e)
    | none =>
      (RemoteCall.deleteACL ⟨serviceID, latestVersion, b.name⟩ ::
          (ACLHandler.deleteLoop conn serviceID latestVersion rest).1,
        (ACLHandler.deleteLoop conn serviceID latestVersion rest).2)

/-- The creation loop of ACLServiceAttributeHandler.Process (lines 61-74):
one CreateACL call per added block, in list order; any error returns at once. -/
def ACLHandler.createLoop (conn : Conn) (serviceID : String) (latestVersion : Int) :
    List ACLBlock → List RemoteCall × Option GoError
  | [] => ([], none)
  | b :: rest =>
    match conn.CreateACL ⟨serviceID, latestVersion, b.name⟩ with
    | some e => ([RemoteCall.createACL ⟨serviceID, latestVersion, b.name⟩], some e)
    | none =>
      (RemoteCall.createACL ⟨serviceID, latestVersion, b.name⟩ ::
          (ACLHandler.createLoop conn serviceID latestVersion rest).1,
        (ACLHandler.createLoop conn serviceID latestVersion rest).2)

/-- ACLServiceAttributeHandler.Process: a nil old or new collection becomes an
empty set (lines 26-31), remove and add are the two set differences (lines
36-37), then the removal loop runs to completion before the creation loop
starts. Returns the remote calls issued, in order, and the returned error. -/
def ACLHandler.Process (conn : Conn) (serviceID : String) (latestVersion : Int)
    (oldACLVal newACLVal : Option (List ACLBlock)) : List RemoteCall × Option GoError :=
  let oldACLSet := oldACLVal.getD []
  let newACLSet := newACLVal.getD []
  let remove := setDifference oldACLSet newACLSet
  let add := setDifference newACLSet oldACLSet
  match (ACLHandler.deleteLoop conn serviceID latestVersion remove).2 with
  | some e => ((ACLHandler.deleteLoop conn serviceID latestVersion remove).1, some e)
  | none =>
    ((ACLHandler.deleteLoop conn serviceID latestVersion remove).1 ++
        (ACLHandler.createLoop conn serviceID latestVersion add).1,
      (ACLHandler.createLoop conn serviceID latestVersion add).2)

/-- The pruning loop shared by the flatteners (for k, v in the map: delete the
entry when v == ""). In Go, comparing an interface value to "" is true exactly
when the value is a string equal to "", so only string-typed empty fields are
removed; zero numbers and false booleans stay. -/
def pruneEmpty (m : List (String × GoValue)) : List (String × GoValue) :=
  m.filter (fun kv => decide (kv.2 ≠ GoValue.str ""))

/-- The field map flattenACLs builds for one gofastly.ACL (lines 126-129),
before pruning. -/
def aclMap (a : ACL) : List (String × GoValue) :=
  [("acl_id", GoValue.str a.ID), ("name", GoValue.str a.Name)]

/-- flattenACLs: one field map per remote ACL, empty-string fields pruned. -/
def flattenACLs (aclList : List ACL) : List (List (String × GoValue)) :=
  aclList.map (fun a => pruneEmpty (aclMap a))

/-- A remote entity of kind gofastly.Logentries: the fields the flattener
reads. Port and FormatVersion are Go uints, modelled as Int inside GoValue. -/
structure Logentries where
  Name : String
  Port : Int
  UseTLS : Bool
  Token : String
  Format : String
  FormatVersion : Int
  ResponseCondition : String
  Placement : String
  deriving DecidableEq, Repr

/-- The field map flattenLogentries builds for one gofastly.Logentries
(lines 176-185), before pruning. -/
def logentriesMap (le : Logentries) : List (String × GoValue) :=
  [("name", GoValue.str le.Name),
   ("port", GoValue.int le.Port),
   ("use_tls", GoValue.bool le.UseTLS),
   ("token", GoValue.str le.Token),
   ("format", GoValue.str le.Format),
   ("format_version", GoValue.int le.FormatVersion),
   ("response_condition", GoValue.str le.ResponseCondition),
   ("placement", GoValue.str le.Placement)]

/-- flattenLogentries: one field map per remote Logentries endpoint,
empty-string fields pruned. -/
def flattenLogentries (logentriesList : List Logentries) : List (List (String × GoValue)) :=
  logentriesList.map (fun le => pruneEmpty (logentriesMap le))

/-- flattenPackage (package handler, lines 93-103): exactly one field map,
source_code_hash from the remote package's metadata and filename from the
caller-supplied argument; no pruning loop runs. -/
def flattenPackage (p : Package) (filename : String) : List (List (String × GoValue)) :=
  [[("source_code_hash", GoValue.str p.Metadata.HashSum),
    ("filename", GoValue.str filename)]]

/-- ACLServiceAttributeHandler.Read (lines 78-96): a list failure is returned
wrapped with context; on success the flattened list is handed to d.Set, whose
failure is only logged as a warning (the match keeps the call observable) and
Read returns nil either way. -/
def ACLHandler.Read (conn : Conn) (serviceID : String) (activeVersion : Int)
    (setState : List (List (String × GoValue)) → Option GoError) : Option GoError :=
  match conn.ListACLs ⟨serviceID, activeVersion⟩ with
  | Except.error _ => some (GoError.other ("Error looking up ACLs for " ++ serviceID))
  | Except.ok aclList =>
    match setState (flattenACLs aclList) with
    | some _ => none
    | none => none

/-- updatePackage (package handler, lines 88-91): forwards to the client's
UpdatePackage and returns its error. -/
def updatePackage (conn : Conn) (i : UpdatePackageInput) : Option GoError :=
  conn.UpdatePackage i

/-- PackageServiceAttributeHandler.Process (lines 48-66): when the package
block is present, one UpdatePackage call with the declared filename as the
package path; its failure is returned wrapped. No delete or create is issued.
Returns the remote calls issued and the returned error. -/
def PackageHandler.Process (conn : Conn) (serviceID : String) (latestVersion : Int)
    (packageVal : Option PackageBlock) : List RemoteCall × Option GoError :=
  match packageVal with
  | none => ([], none)
  | some pb =>
    match updatePackage conn ⟨serviceID, latestVersion, pb.filename⟩ with
    | some _ => ([RemoteCall.updatePackage ⟨serviceID, latestVersion, pb.filename⟩],
        some (GoError.other ("Error modifying package " ++ serviceID)))
    | none => ([RemoteCall.updatePackage ⟨serviceID, latestVersion, pb.filename⟩], none)

/-- PackageServiceAttributeHandler.Read (lines 68-86): a get failure is
returned wrapped; on success the stored value is flattenPackage of the remote
package and the caller's own last-known declared filename
(d.Get "package.0.filename"); a d.Set failure is only logged. Returns the
value handed to d.Set (none when d.Set was not reached) and the returned
error. -/
def PackageHandler.Read (conn : Conn) (serviceID : String) (activeVersion : Int)
    (priorFilename : String)
    (setState : List (List (String × GoValue)) → Option GoError) :
    Option (List (List (String × GoValue))) × Option GoError :=
  match conn.GetPackage ⟨serviceID, activeVersion⟩ with
  | Except.error _ => (none, some (GoError.other ("Error looking up Package for " ++ serviceID)))
  | Except.ok p =>
    match setState (flattenPackage p priorFilename) with
    | some _ => (some (flattenPackage p priorFilename), none)
    | none => (some (flattenPackage p priorFilename), none)

/-- Membership in a set difference: exactly the members of s not in other. -/
theorem mem_setDifference {x : ACLBlock} {A B : List ACLBlock} :
    x ∈ setDifference A B ↔ (x ∈ A ∧ x ∉ B) := by
  simp [setDifference]

/-- The difference of a collection with itself is empty. -/
theorem setDifference_self (A : List ACLBlock) : setDifference A A = [] := by
  simp [setDifference]

/-- Every call the removal loop issues is a delete. -/
theorem deleteLoop_all_deletes (conn : Conn) (sid : String) (v : Int) :
    ∀ l : List ACLBlock, ∀ c ∈ (ACLHandler.deleteLoop conn sid v l).1, c.isDelete = true := by
  intro l
  induction l with
  | nil => intro c hc; simp [ACLHandler.deleteLoop] at hc
  | cons b rest ih =>
    intro c hc
    cases h : deleteErrFatal (conn.DeleteACL ⟨sid, v, b.name⟩) with
    | some e =>
      simp only [ACLHandler.deleteLoop, h, List.mem_singleton] at hc
      subst hc; rfl
    | none =>
      simp only [ACLHandler.deleteLoop, h, List.mem_cons] at hc
      rcases hc with hc | hc
      · subst hc; rfl
      · exact ih c hc

/-- Every call the creation loop issues is a create. -/
theorem createLoop_all_creates (conn : Conn) (sid : String) (v : Int) :
    ∀ l : List ACLBlock, ∀ c ∈ (ACLHandler.createLoop conn sid v l).1, c.isCreate = true := by
  intro l
  induction l with
  | nil => intro c hc; simp [ACLHandler.createLoop] at hc
  | cons b rest ih =>
    intro c hc
    cases h : conn.CreateACL ⟨sid, v, b.name⟩ with
    | some e =>
      simp only [ACLHandler.createLoop, h, List.mem_singleton] at hc
      subst hc; rfl
    | none =>
      simp only [ACLHandler.createLoop, h, List.mem_cons] at hc
      rcases hc with hc | hc
      · subst hc; rfl
      · exact ih c hc

/-- A removal loop that completed issued one delete per removal, in order. -/
theorem deleteLoop_complete (conn : Conn) (sid : String) (v : Int) :
    ∀ l : List ACLBlock, (ACLHandler.deleteLoop conn sid v l).2 = none →
      (ACLHandler.deleteLoop conn sid v l).1 =
        l.map (fun b => RemoteCall.deleteACL ⟨sid, v, b.name⟩) := by
  intro l
  induction l with
  | nil => intro _; rfl
  | cons b rest ih =>
    intro h2
    cases h : deleteErrFatal (conn.DeleteACL ⟨sid, v, b.name⟩) with
    | some e => simp [ACLHandler.deleteLoop, h] at h2
    | none =>
      simp only [ACLHandler.deleteLoop, h] at h2 ⊢
      simp [ih h2]

/-- When no removal's delete classifies as fatal, the loop issues every
delete and completes. -/
theorem deleteLoop_ok (conn : Conn) (sid : String) (v : Int) :
    ∀ l : List ACLBlock,
      (∀ x ∈ l, deleteErrFatal (conn.DeleteACL ⟨sid, v, x.name⟩) = none) →
      ACLHandler.deleteLoop conn sid v l =
        (l.map (fun b => RemoteCall.deleteACL ⟨sid, v, b.name⟩), none) := by
  intro l
  induction l with
  | nil => intro _; rfl
  | cons b rest ih =>
    intro hl
    have hb : deleteErrFatal (conn.DeleteACL ⟨sid, v, b.name⟩) = none := hl b (by simp)
    have hr := ih (fun x hx => hl x (by simp [hx]))
    simp [ACLHandler.deleteLoop, hb, hr]

/-- A delete answered by nil or by HTTP 404 is classified non-fatal. -/
theorem deleteErrFatal_benign {r : Option GoError}
    (h : r = none ∨ r = some (GoError.httpError 404)) : deleteErrFatal r = none := by
  rcases h with h | h <;> simp [h, deleteErrFatal]

/-- When a removal's delete classifies as fatal and all before it were
non-fatal, the loop stops there: one delete per earlier removal, the fatal
delete, that error, and nothing for the remaining removals. -/
theorem deleteLoop_fatal (conn : Conn) (sid : String) (v : Int) :
    ∀ (pre : List ACLBlock) (b : ACLBlock) (post : List ACLBlock) (e : GoError),
      (∀ x ∈ pre, deleteErrFatal (conn.DeleteACL ⟨sid, v, x.name⟩) = none) →
      deleteErrFatal (conn.DeleteACL ⟨sid, v, b.name⟩) = some e →
      ACLHandler.deleteLoop conn sid v (pre ++ b :: post) =
        (pre.map (fun x => RemoteCall.deleteACL ⟨sid, v, x.name⟩) ++
          [RemoteCall.deleteACL ⟨sid, v, b.name⟩], some e) := by
  intro pre
  induction pre with
  | nil => intro b post e _ hb; simp [ACLHandler.deleteLoop, hb]
  | cons p ps ih =>
    intro b post e hpre hb
    have hp : deleteErrFatal (conn.DeleteACL ⟨sid, v, p.name⟩) = none := hpre p (by simp)
    have hr := ih b post e (fun x hx => hpre x (by simp [hx])) hb
    simp [ACLHandler.deleteLoop, hp, hr]

/-- When an addition's create fails and all before it succeeded, the loop
stops there: one create per earlier addition, the failing create, that error,
and nothing for the remaining additions. -/
theorem createLoop_fatal (conn : Conn) (sid : String) (v : Int) :
    ∀ (pre : List ACLBlock) (b : ACLBlock) (post : List ACLBlock) (e : GoError),
      (∀ x ∈ pre, conn.CreateACL ⟨sid, v, x.name⟩ = none) →
      conn.CreateACL ⟨sid, v, b.name⟩ = some e →
      ACLHandler.createLoop conn sid v (pre ++ b :: post) =
        (pre.map (fun x => RemoteCall.createACL ⟨sid, v, x.name⟩) ++
          [RemoteCall.createACL ⟨sid, v, b.name⟩], some e) := by
  intro pre
  induction pre with
  | nil => intro b post e _ hb; simp [ACLHandler.createLoop, hb]
  | cons p ps ih =>
    intro b post e hpre hb
    have hp : conn.CreateACL ⟨sid, v, p.name⟩ = none := hpre p (by simp)
    have hr := ih b post e (fun x hx => hpre x (by simp [hx])) hb
    simp [ACLHandler.createLoop, hp, hr]

/-- C1: the reconciliation write path computes the removal set as exactly
A − B and the addition set as exactly B − A under full structural equality of
blocks, and for every collection A, processing (A, A) yields empty removal
and addition sets, issues no remote call and returns no error. -/
theorem aclProcess_diff_exact (conn : Conn) (sid : String) (v : Int)
    (A B : List ACLBlock) :
    (∀ x, x ∈ setDifference A B ↔ (x ∈ A ∧ x ∉ B)) ∧
    (∀ x, x ∈ setDifference B A ↔ (x ∈ B ∧ x ∉ A)) ∧
    ACLHandler.Process conn sid v (some A) (some A) = ([], none) := by
  refine ⟨fun x => mem_setDifference, fun x => mem_setDifference, ?_⟩
  simp [ACLHandler.Process, setDifference_self, ACLHandler.deleteLoop, ACLHandler.createLoop]

/-- C2: in every invocation of Process, every remote delete call is issued
before any remote create call: the trace splits into a delete phase followed
by a create phase, and the create phase is nonempty only when the removal
loop completed, having processed every removal in list order. -/
theorem aclProcess_deletes_before_creates (conn : Conn) (sid : String) (v : Int)
    (oldV newV : Option (List ACLBlock)) :
    ∃ dcalls ccalls,
      (ACLHandler.Process conn sid v oldV newV).1 = dcalls ++ ccalls ∧
      (∀ c ∈ dcalls, c.isDelete = true) ∧
      (∀ c ∈ ccalls, c.isCreate = true) ∧
      (ccalls ≠ [] →
        (ACLHandler.deleteLoop conn sid v (setDifference (oldV.getD []) (newV.getD []))).2 = none ∧
        dcalls = (setDifference (oldV.getD []) (newV.getD [])).map
          (fun b => RemoteCall.deleteACL ⟨sid, v, b.name⟩)) := by
  cases h : (ACLHandler.deleteLoop conn sid v (setDifference (oldV.getD []) (newV.getD []))).2 with
  | some e =>
    refine ⟨(ACLHandler.deleteLoop conn sid v (setDifference (oldV.getD []) (newV.getD []))).1,
      [], ?_, deleteLoop_all_deletes conn sid v _, by simp, by simp⟩
    simp [ACLHandler.Process, h]
  | none =>
    refine ⟨(ACLHandler.deleteLoop conn sid v (setDifference (oldV.getD []) (newV.getD []))).1,
      (ACLHandler.createLoop conn sid v (setDifference (newV.getD []) (oldV.getD []))).1,
      ?_, deleteLoop_all_deletes conn sid v _, createLoop_all_creates conn sid v _, ?_⟩
    · simp [ACLHandler.Process, h]
    · intro _
      exact ⟨rfl, deleteLoop_complete conn sid v _ h⟩

/-- C3: when each removal's remote delete answers success or an HTTP 404
error, the 404s are absorbed as success: every removal is processed, the
removal phase returns no error, and Process goes on to the additions,
returning the creation loop's calls and outcome. -/
theorem aclProcess_absorbs_notfound (conn : Conn) (sid : String) (v : Int)
    (oldV newV : Option (List ACLBlock))
    (h : ∀ b ∈ setDifference (oldV.getD []) (newV.getD []),
      conn.DeleteACL ⟨sid, v, b.name⟩ = none ∨
      conn.DeleteACL ⟨sid, v, b.name⟩ = some (GoError.httpError 404)) :
    ACLHandler.Process conn sid v oldV newV =
      ((setDifference (oldV.getD []) (newV.getD [])).map
          (fun b => RemoteCall.deleteACL ⟨sid, v, b.name⟩) ++
        (ACLHandler.createLoop conn sid v (setDifference (newV.getD []) (oldV.getD []))).1,
       (ACLHandler.createLoop conn sid v (setDifference (newV.getD []) (oldV.getD []))).2) := by
  have hd := deleteLoop_ok conn sid v _ (fun x hx => deleteErrFatal_benign (h x hx))
  simp [ACLHandler.Process, hd]

/-- A client whose deletes always answer HTTP 404 and whose other operations
succeed. -/
def c404 : Conn where
  DeleteACL := fun _ => some (GoError.httpError 404)
  CreateACL := fun _ => none
  UpdatePackage := fun _ => none
  ListACLs := fun _ => Except.ok []
  GetPackage := fun _ => Except.ok ⟨⟨""⟩⟩

/-- Witness for C3: one removal whose delete answers 404 is absorbed and the
additions still run. -/
theorem aclProcess_absorbs_notfound_w :
    ACLHandler.Process c404 "sid" 7 (some [⟨"a", "x"⟩]) (some []) =
      ((setDifference [⟨"a", "x"⟩] []).map
          (fun b => RemoteCall.deleteACL ⟨"sid", 7, b.name⟩) ++
        (ACLHandler.createLoop c404 "sid" 7 (setDifference [] [⟨"a", "x"⟩])).1,
       (ACLHandler.createLoop c404 "sid" 7 (setDifference [] [⟨"a", "x"⟩])).2) :=
  aclProcess_absorbs_notfound c404 "sid" 7 (some [⟨"a", "x"⟩]) (some []) (by decide)

/-- C4: a fatal failure aborts Process at once with that error unchanged:
when a removal's delete classifies as fatal (any error other than HTTP 404)
after non-fatal predecessors, no remaining removal or addition is attempted;
when an addition's create fails after successful predecessors and a clean
removal phase, no remaining addition is attempted. -/
theorem aclProcess_fatal_abort (conn : Conn) (sid : String) (v : Int)
    (oldV newV : Option (List ACLBlock)) :
    (∀ pre b post e,
      setDifference (oldV.getD []) (newV.getD []) = pre ++ b :: post →
      (∀ x ∈ pre, deleteErrFatal (conn.DeleteACL ⟨sid, v, x.name⟩) = none) →
      deleteErrFatal (conn.DeleteACL ⟨sid, v, b.name⟩) = some e →
      ACLHandler.Process conn sid v oldV newV =
        (pre.map (fun x => RemoteCall.deleteACL ⟨sid, v, x.name⟩) ++
          [RemoteCall.deleteACL ⟨sid, v, b.name⟩], some e)) ∧
    (∀ pre b post e,
      (∀ x ∈ setDifference (oldV.getD []) (newV.getD []),
        deleteErrFatal (conn.DeleteACL ⟨sid, v, x.name⟩) = none) →
      setDifference (newV.getD []) (oldV.getD []) = pre ++ b :: post →
      (∀ x ∈ pre, conn.CreateACL ⟨sid, v, x.name⟩ = none) →
      conn.CreateACL ⟨sid, v, b.name⟩ = some e →
      ACLHandler.Process conn sid v oldV newV =
        ((setDifference (oldV.getD []) (newV.getD [])).map
            (fun x => RemoteCall.deleteACL ⟨sid, v, x.name⟩) ++
          (pre.map (fun x => RemoteCall.createACL ⟨sid, v, x.name⟩) ++
            [RemoteCall.createACL ⟨sid, v, b.name⟩]), some e)) := by
  constructor
  · intro pre b post e hsplit hpre hb
    have hd := deleteLoop_fatal conn sid v pre b post e hpre hb
    simp [ACLHandler.Process, hsplit, hd]
  · intro pre b post e hdel hsplit hpre hb
    have hd := deleteLoop_ok conn sid v _ hdel
    have hc := createLoop_fatal conn sid v pre b post e hpre hb
    simp [ACLHandler.Process, hd, hsplit, hc]

/-- A client whose every operation succeeds. -/
def cOk : Conn where
  DeleteACL := fun _ => none
  CreateACL := fun _ => none
  UpdatePackage := fun _ => none
  ListACLs := fun _ => Except.ok []
  GetPackage := fun _ => Except.ok ⟨⟨""⟩⟩

/-- C5 counterexample: the package handler's write path issues an
UpdatePackage call, which is neither a remote delete nor a remote create, so
it is not true that every handler applies every declared-state change
exclusively as delete and create calls. -/
theorem packageProcess_update_call_cex :
    ¬ (∀ c ∈ (PackageHandler.Process cOk "sid" 1 (some ⟨"pkg.tar.gz", "h"⟩)).1,
        (c.isDelete = true ∨ c.isCreate = true)) := by
  decide

/-- C5 amended: the ACL handler's write path issues only delete and create
calls; the package handler's write path issues only whole-package
UpdatePackage calls (a full replacement upload of the declared file, not a
partial field patch, and not a delete or create). -/
theorem writePath_call_kinds (conn : Conn) (sid : String) (v : Int)
    (oldV newV : Option (List ACLBlock)) (pkgVal : Option PackageBlock) :
    (∀ c ∈ (ACLHandler.Process conn sid v oldV newV).1,
      c.isDelete = true ∨ c.isCreate = true) ∧
    (∀ c ∈ (PackageHandler.Process conn sid v pkgVal).1,
      ∃ i : UpdatePackageInput, c = RemoteCall.updatePackage i) := by
  constructor
  · intro c hc
    cases h : (ACLHandler.deleteLoop conn sid v (setDifference (oldV.getD []) (newV.getD []))).2 with
    | some e =>
      simp only [ACLHandler.Process, h] at hc
      exact Or.inl (deleteLoop_all_deletes conn sid v _ c hc)
    | none =>
      simp only [ACLHandler.Process, h, List.mem_append] at hc
      rcases hc with hc | hc
      · exact Or.inl (deleteLoop_all_deletes conn sid v _ c hc)
      · exact Or.inr (createLoop_all_creates conn sid v _ c hc)
  · intro c hc
    cases pkgVal with
    | none => simp [PackageHandler.Process] at hc
    | some pb =>
      cases h : updatePackage conn ⟨sid, v, pb.filename⟩ with
      | some e =>
        simp only [PackageHandler.Process, h, List.mem_singleton] at hc
        exact ⟨_, hc⟩
      | none =>
        simp only [PackageHandler.Process, h, List.mem_singleton] at hc
        exact ⟨_, hc⟩

/-- Membership after pruning: exactly the entries whose value is not the
empty string survive. -/
theorem mem_pruneEmpty {kv : String × GoValue} {m : List (String × GoValue)} :
    kv ∈ pruneEmpty m ↔ (kv ∈ m ∧ kv.2 ≠ GoValue.str "") := by
  simp [pruneEmpty]

/-- A list is elementwise related to its own map image. -/
theorem forall2_map_self {α β : Type} (f : α → β) (p : α → β → Prop)
    (hp : ∀ x, p x (f x)) : ∀ l : List α, List.Forall₂ p l (l.map f)
  | [] => List.Forall₂.nil
  | x :: xs => List.Forall₂.cons (hp x) (forall2_map_self f p hp xs)

/-- C6: each produced field mapping keeps exactly the entries whose value is
not the empty string, for the Logentries and the ACL normalizer alike, so
non-string fields (zero numbers, false booleans) are never pruned; a remote
Logentries with Name "a" and empty Format normalizes with name present,
format absent, and its zero port, false use_tls and zero format_version all
still present. -/
theorem flatten_prunes_empty_strings (l : List Logentries) (al : List ACL) :
    List.Forall₂ (fun le m => ∀ kv, kv ∈ m ↔
      (kv ∈ logentriesMap le ∧ kv.2 ≠ GoValue.str "")) l (flattenLogentries l) ∧
    List.Forall₂ (fun a m => ∀ kv, kv ∈ m ↔
      (kv ∈ aclMap a ∧ kv.2 ≠ GoValue.str "")) al (flattenACLs al) ∧
    flattenLogentries [⟨"a", 0, false, "t", "", 0, "", ""⟩] =
      [[("name", GoValue.str "a"), ("port", GoValue.int 0),
        ("use_tls", GoValue.bool false), ("token", GoValue.str "t"),
        ("format_version", GoValue.int 0)]] := by
  refine ⟨forall2_map_self _ _ (fun le kv => mem_pruneEmpty) l,
    forall2_map_self _ _ (fun a kv => mem_pruneEmpty) al, ?_⟩
  rfl

/-- C7: a nil old or new collection behaves exactly as an empty collection,
and nil inputs are never an error: Process with both collections nil issues
no remote call and returns no error. -/
theorem aclProcess_nil_as_empty (conn : Conn) (sid : String) (v : Int)
    (oldV newV : Option (List ACLBlock)) :
    ACLHandler.Process conn sid v none newV = ACLHandler.Process conn sid v (some []) newV ∧
    ACLHandler.Process conn sid v oldV none = ACLHandler.Process conn sid v oldV (some []) ∧
    ACLHandler.Process conn sid v none none = ([], none) :=
  ⟨rfl, rfl, rfl⟩

/-- C8: when the remote list succeeds, a failure while storing the normalized
result in the state sink is only logged: Read returns nil for every possible
sink outcome. -/
theorem aclRead_sink_failure_not_propagated (conn : Conn) (sid : String) (av : Int)
    (setState : List (List (String × GoValue)) → Option GoError)
    (l : List ACL) (h : conn.ListACLs ⟨sid, av⟩ = Except.ok l) :
    ACLHandler.Read conn sid av setState = none := by
  unfold ACLHandler.Read
  rw [h]
  change (match setState (flattenACLs l) with | some _ => none | none => none) = none
  cases setState (flattenACLs l) <;> rfl

/-- A client whose ACL list answers one entry and whose other operations
succeed. -/
def cList : Conn where
  DeleteACL := fun _ => none
  CreateACL := fun _ => none
  UpdatePackage := fun _ => none
  ListACLs := fun _ => Except.ok [⟨"id1", "a"⟩]
  GetPackage := fun _ => Except.ok ⟨⟨""⟩⟩

/-- A state sink that always fails. -/
def failSink : List (List (String × GoValue)) → Option GoError :=
  fun _ => some (GoError.other "disk full")

/-- Witness for C8: with a sink that always fails, Read still returns nil. -/
theorem aclRead_sink_failure_not_propagated_w :
    ACLHandler.Read cList "sid" 3 failSink = none :=
  aclRead_sink_failure_not_propagated cList "sid" 3 failSink [⟨"id1", "a"⟩] rfl

/-- C9: on a successful get, the stored package block takes its filename from
the caller's own last-known declared value and its source_code_hash from the
remote package's metadata. -/
theorem packageRead_filename_from_caller (conn : Conn) (sid : String) (av : Int)
    (priorFilename : String)
    (setState : List (List (String × GoValue)) → Option GoError)
    (p : Package) (h : conn.GetPackage ⟨sid, av⟩ = Except.ok p) :
    PackageHandler.Read conn sid av priorFilename setState =
      (some [[("source_code_hash", GoValue.str p.Metadata.HashSum),
              ("filename", GoValue.str priorFilename)]], none) := by
  unfold PackageHandler.Read
  rw [h]
  change (match setState (flattenPackage p priorFilename) with
    | some _ => (some (flattenPackage p priorFilename), none)
    | none => (some (flattenPackage p priorFilename), none)) =
    (some [[("source_code_hash", GoValue.str p.Metadata.HashSum),
            ("filename", GoValue.str priorFilename)]], none)
  cases setState (flattenPackage p priorFilename) <;> rfl

/-- A client whose package get answers a fixed hash and whose other
operations succeed. -/
def cPkg : Conn where
  DeleteACL := fun _ => none
  CreateACL := fun _ => none
  UpdatePackage := fun _ => none
  ListACLs := fun _ => Except.ok []
  GetPackage := fun _ => Except.ok ⟨⟨"hash9"⟩⟩

/-- Witness for C9 at a concrete client, prior filename and failing sink. -/
theorem packageRead_filename_from_caller_w :
    PackageHandler.Read cPkg "sid" 2 "code.tar.gz" failSink =
      (some [[("source_code_hash", GoValue.str "hash9"),
              ("filename", GoValue.str "code.tar.gz")]], none) :=
  packageRead_filename_from_caller cPkg "sid" 2 "code.tar.gz" failSink ⟨⟨"hash9"⟩⟩ rfl

/-- C10: flattenPackage always returns exactly one mapping carrying both the
filename key and the source_code_hash key; no empty-string pruning is
applied, so empty values stay as explicit empty strings. -/
theorem flattenPackage_both_keys (p : Package) (filename : String) :
    flattenPackage p filename =
      [[("source_code_hash", GoValue.str p.Metadata.HashSum),
        ("filename", GoValue.str filename)]] ∧
    (flattenPackage p filename).length = 1 ∧
    (∀ m ∈ flattenPackage p filename,
      ("filename", GoValue.str filename) ∈ m ∧
      ("source_code_hash", GoValue.str p.Metadata.HashSum) ∈ m) ∧
    flattenPackage ⟨⟨""⟩⟩ "" =
      [[("source_code_hash", GoValue.str ""), ("filename", GoValue.str "")]] := by
  refine ⟨rfl, rfl, ?_, rfl⟩
  intro m hm
  simp only [flattenPackage, List.mem_singleton] at hm
  subst hm
  simp

/-- A client whose create fails for the ACL named "b" and whose other
operations succeed. -/
def cFatal : Conn where
  DeleteACL := fun _ => none
  CreateACL := fun i => if i.Name = "b" then some (GoError.other "boom") else none
  UpdatePackage := fun _ => none
  ListACLs := fun _ => Except.ok []
  GetPackage := fun _ => Except.ok ⟨⟨""⟩⟩

/-- Witness for C4: of three additions the second fails, so the third is
never attempted and the error is returned unchanged. -/
theorem aclProcess_fatal_abort_w :
    ACLHandler.Process cFatal "sid" 1 (some [])
        (some [⟨"a", ""⟩, ⟨"b", ""⟩, ⟨"c", ""⟩]) =
      ((setDifference [] [⟨"a", ""⟩, ⟨"b", ""⟩, ⟨"c", ""⟩]).map
          (fun x => RemoteCall.deleteACL ⟨"sid", 1, x.name⟩) ++
        (([⟨"a", ""⟩] : List ACLBlock).map
            (fun x => RemoteCall.createACL ⟨"sid", 1, x.name⟩) ++
          [RemoteCall.createACL ⟨"sid", 1, "b"⟩]), some (GoError.other "boom")) :=
  (aclProcess_fatal_abort cFatal "sid" 1 (some [])
      (some [⟨"a", ""⟩, ⟨"b", ""⟩, ⟨"c", ""⟩])).2
    [⟨"a", ""⟩] ⟨"b", ""⟩ [⟨"c", ""⟩] (GoError.other "boom")
    (by decide) (by decide) (by decide) (by decide)
